import Mathlib

/-!
Verification development for the live-event operations dashboard
(`src/components/Dashboard.tsx`: the `Dashboard`, `TimeCard` and
`VenueOccupancy` components).

The TypeScript component logic is shallowly embedded as follows:

* React `useState` cells become fields of explicit state records
  (`OccState` for `VenueOccupancy`, `IncidentStats` for `Dashboard`);
  a setter call becomes a field update on the state being threaded.
* Asynchronous reads against the backend are modelled by passing the
  outcome of each read (`ReadResult`, `StatsRead`) as an argument to the
  function that consumes it; a thrown error is a `ReadResult.err` and
  `try`/`catch` blocks become `Except` values that the catch handler
  eliminates.
* Effect lifecycles (mount / dependency change / unmount) are modelled by
  a small-step machine (`MicroOp`, `microStep`): React runs the previous
  effect's cleanup before the next effect body, and the body of the
  occupancy effect is the op sequence `cleanup; open channel; start fetch`,
  exactly mirroring the statement order of the source.
* JavaScript numbers that only ever hold integers (counts, capacities,
  minutes) are modelled as `Int`/`Nat`; `Math.round x` for nonnegative
  rationals `p/q` is `⌊p/q + 1/2⌋`, and the float literal `0.9` in
  `count >= capacity * 0.9` is modelled by the exact comparison
  `9 * capacity ≤ 10 * count` (exact-rational model of the float test).
* JavaScript `Array.prototype.sort` (stable since ES2019) with a numeric
  comparator is modelled as a stable insertion sort (`stableSortByMinutes`);
  an instrumented copy carrying original positions (`stableSortIdxByMinutes`)
  is used to state stability.
-/

namespace Dashboard

/-! ## Backend read outcomes -/

/-- Outcome of one supabase point-in-time read: either data or an error
carrying the backend error code (`error.code` in the source). -/
inductive ReadResult (α : Type) where
  | ok (data : α)
  | err (code : String)
deriving DecidableEq

/-! ## VenueOccupancy state and snapshot fetch -/

/-- The three `useState` cells of `VenueOccupancy`:
`currentCount` (initially `0`), `loading` (initially `true`),
`venueCapacity` (initially `3500`). -/
structure OccState where
  currentCount : Int
  loading : Bool
  venueCapacity : Int
deriving DecidableEq

/-- Initial `VenueOccupancy` state. -/
def occState0 : OccState := { currentCount := 0, loading := true, venueCapacity := 3500 }

/-- The `try`-block of `VenueOccupancy.fetchData`.
`rEvent` is the events-table read returning the `venue_capacity` field
(`none` models an absent/null field), `rAtt` is the latest
attendance-record read returning `count`.  A `.error ()` result is a
thrown error caught by the catch block in `fetchData`.  The source:
event read error is thrown; a truthy `venue_capacity` overwrites the
capacity; an attendance error with code other than `"PGRST116"` is
thrown; with data the count is stored, with no row (`PGRST116`) the
count is set to `0`. -/
def fetchDataBody (rEvent : ReadResult (Option Int)) (rAtt : ReadResult Int)
    (s : OccState) : Except Unit OccState :=
  match rEvent with
  | ReadResult.err _ => Except.error ()
  | ReadResult.ok vcap =>
    let s1 := match vcap with
      | some v => if v != 0 then { s with venueCapacity := v } else s
      | none => s
    match rAtt with
    | ReadResult.ok c => Except.ok { s1 with currentCount := c }
    | ReadResult.err code =>
      if code != "PGRST116" then Except.error ()
      else Except.ok { s1 with currentCount := 0 }

/-- `VenueOccupancy.fetchData`: `setLoading(true)`, the try block, the
catch handler (`setCurrentCount(0); setVenueCapacity(3500)` after
logging), and the finally block (`setLoading(false)`). -/
def fetchData (rEvent : ReadResult (Option Int)) (rAtt : ReadResult Int)
    (s : OccState) : OccState :=
  let sTry := { s with loading := true }
  let s2 := match fetchDataBody rEvent rAtt sTry with
    | Except.ok t => t
    | Except.error _ => { sTry with currentCount := 0, venueCapacity := 3500 }
  { s2 with loading := false }

/-- Whether an attendance read outcome is one that `fetchData` does not
re-throw: data, or the supabase "no rows" code `PGRST116`. -/
def attNonThrowing : ReadResult Int → Bool
  | ReadResult.ok _ => true
  | ReadResult.err code => code == "PGRST116"

/-! ## Incident statistics -/

/-- One `incident_logs` row, with the fields the aggregator reads:
`incident_type`, `is_closed`, and the truthiness of `action_taken`. -/
structure Incident where
  incident_type : String
  is_closed : Bool
  action_taken : Bool
deriving DecidableEq

/-- The `incidentStats` state record of `Dashboard` (field `open` of the
source is `openCount` here since `open` is a Lean keyword; `closed` is
`closedCount` for symmetry). -/
structure IncidentStats where
  total : Nat
  high : Nat
  openCount : Nat
  inProgress : Nat
  closedCount : Nat
  logged : Nat
  avgResolution : Nat
  refusals : Nat
  ejections : Nat
  medical : Nat
deriving DecidableEq

/-- Initial (all-zero) `incidentStats` state. -/
def stats0 : IncidentStats :=
  { total := 0, high := 0, openCount := 0, inProgress := 0, closedCount := 0,
    logged := 0, avgResolution := 0, refusals := 0, ejections := 0, medical := 0 }

/-- The aggregation in `fetchIncidentStats` over the incident rows of the
current event (the `setIncidentStats` argument). -/
def computeIncidentStats (incidents : List Incident) : IncidentStats :=
  let nonSitRepIncidents := incidents.filter (fun i => i.incident_type != "Sit Rep")
  let sitRepIncidents := incidents.filter (fun i => i.incident_type == "Sit Rep")
  { total := incidents.length
    high := (incidents.filter (fun i =>
        ["Ejection", "Code Green", "Code Black", "Code Pink"].contains i.incident_type)).length
    openCount := (nonSitRepIncidents.filter (fun i => !i.is_closed)).length
    inProgress := (nonSitRepIncidents.filter (fun i => !i.is_closed && i.action_taken)).length
    closedCount := (nonSitRepIncidents.filter (fun i => i.is_closed)).length
    logged := sitRepIncidents.length
    avgResolution := 0
    refusals := (incidents.filter (fun i => i.incident_type == "Refusal")).length
    ejections := (incidents.filter (fun i => i.incident_type == "Ejection")).length
    medical := (incidents.filter (fun i =>
        ["Code Green", "Code Purple"].contains i.incident_type)).length }

/-- Joint outcome of the two reads in `Dashboard.fetchIncidentStats`:
the current-event lookup (`none` models no current event / null data),
the incident rows (`none` models null data), or a raised error caught by
the catch block. -/
inductive StatsRead where
  | ok (currentEvent : Option String) (incidents : Option (List Incident))
  | raised
deriving DecidableEq

/-- `Dashboard.fetchIncidentStats` as a state transformer on the
`incidentStats` cell: early-returns leave the state unchanged, the
success path stores the recomputed buckets, and the catch block only
logs (it does not write any state). -/
def fetchIncidentStats : StatsRead → IncidentStats → IncidentStats
  | StatsRead.raised, s => s
  | StatsRead.ok none _, s => s
  | StatsRead.ok (some _) none, s => s
  | StatsRead.ok (some _) (some incidents), _ => computeIncidentStats incidents

/-! ## Occupancy rendering -/

/-- JavaScript `Math.round (num / den)` for exact rational `num / den`
with `den > 0`: half-up rounding, `⌊num/den + 1/2⌋`. -/
def jsRound (num den : Int) : Int := Int.fdiv (2 * num + den) (2 * den)

/-- The displayed percentage `Math.round((currentCount / venueCapacity) * 100)`
(not clamped). -/
def occupancyPercent (count cap : Int) : Int := jsRound (count * 100) cap

/-- The progress-bar width `Math.min(Math.round((count / cap) * 100), 100)`. -/
def barWidthPercent (count cap : Int) : Int := min (occupancyPercent count cap) 100

/-- The three colors `#2A3990` (normal), `#f97316` (warning) and
`#ef4444` (over capacity) used for the percentage text and the bar. -/
inductive OccupancyColor where
  | normal
  | warning
  | overCapacity
deriving DecidableEq

/-- The color choice `count > cap ? over : count >= cap * 0.9 ? warning : normal`,
with the float test `count >= cap * 0.9` modelled exactly as
`9 * cap ≤ 10 * count`. -/
def occupancyColor (count cap : Int) : OccupancyColor :=
  if cap < count then OccupancyColor.overCapacity
  else if 9 * cap ≤ 10 * count then OccupancyColor.warning
  else OccupancyColor.normal

/-- Whether the "Over Capacity" label is rendered: `currentCount > venueCapacity`. -/
def overCapacityFlag (count cap : Int) : Bool := cap < count

/-- The data shown by the percentage/progress-bar block of the
`VenueOccupancy` render. -/
structure OccupancyDisplay where
  percentDisplayed : Int
  barWidth : Int
  color : OccupancyColor
  overFlag : Bool
deriving DecidableEq

/-- The `venueCapacity > 0 && (...)` guarded block of the render:
`none` when the guard suppresses the bar and percentage (so none of the
divisions by `venueCapacity` are evaluated). -/
def occupancySection (count cap : Int) : Option OccupancyDisplay :=
  if 0 < cap then
    some { percentDisplayed := occupancyPercent count cap
           barWidth := barWidthPercent count cap
           color := occupancyColor count cap
           overFlag := overCapacityFlag count cap }
  else none

/-! ## Realtime payload handlers -/

/-- A JSON value stored in a payload field (enough structure to express
the `typeof x === 'number'` test). -/
inductive JsonVal where
  | num (n : Int)
  | str (s : String)
  | boolean (b : Bool)
  | null
deriving DecidableEq

/-- The `payload.new` row: the `count` field may be absent (`none`) or
hold any JSON value. -/
structure AttendanceRow where
  count : Option JsonVal
deriving DecidableEq

/-- A realtime payload: `payload.new` may be absent/null. -/
structure AttendancePayload where
  newRow : Option AttendanceRow
deriving DecidableEq

/-- The INSERT handler of the attendance subscription:
`if (newRecord && typeof newRecord.count === 'number') setCurrentCount(newRecord.count)`. -/
def handleAttendanceInsert (p : AttendancePayload) (s : OccState) : OccState :=
  match p.newRow with
  | some row =>
    match row.count with
    | some (JsonVal.num n) => { s with currentCount := n }
    | _ => s
  | none => s

/-- The UPDATE handler of the attendance subscription (textually the
same guard and assignment as the INSERT handler). -/
def handleAttendanceUpdate (p : AttendancePayload) (s : OccState) : OccState :=
  match p.newRow with
  | some row =>
    match row.count with
    | some (JsonVal.num n) => { s with currentCount := n }
    | _ => s
  | none => s

/-! ## Countdown clock (`TimeCard.calculateCountdown`) -/

/-- The target instant computed by `calculateCountdown`, in milliseconds
since today's midnight.  `now` is the current instant in milliseconds
since today's midnight (so `now < 86400000`).  The source copies `now`
and calls `setHours(hours, minutes, 0)`, which zeroes seconds but keeps
the millisecond component of `now`; if the result is strictly before
`now` it is moved forward by exactly one day. -/
def countdownTarget (h m now : Nat) : Nat :=
  let base := (h * 60 + m) * 60000 + now % 1000
  if base < now then base + 86400000 else base

/-- The whole hours / minutes / seconds of the remaining duration
`diff = eventTime - now` (`Math.floor` of the three divisions). -/
def countdownParts (h m now : Nat) : Nat × Nat × Nat :=
  let diff := countdownTarget h m now - now
  (diff / 3600000, diff % 3600000 / 60000, diff % 60000 / 1000)

/-- The rendered countdown string
`` `${hours_remaining}h ${minutes_remaining}m ${seconds_remaining}s` ``. -/
def countdownString (h m now : Nat) : String :=
  let p := countdownParts h m now
  toString p.1 ++ "h " ++ toString p.2.1 ++ "m " ++ toString p.2.2 ++ "s"

/-! ## Subscription lifecycle machine (`VenueOccupancy` effect)

The `useEffect` of `VenueOccupancy` (dependency `currentEventId`):
the body is `if no key: cleanup; return` else
`cleanup; subscribe (open new channel); fetchData()` and the registered
destructor is `cleanup`.  React runs the destructor of the previous
effect before the next body and on unmount.  `cleanup` unsubscribes the
channel held in `subscriptionRef` (if any) and nulls the ref. -/

/-- A realtime channel: the identity supabase allocates (modelled by a
fresh number) and the event key it is filtered on. -/
structure Channel where
  id : Nat
  key : String
deriving DecidableEq

/-- The non-render state of one `VenueOccupancy` instance: the React
state cells, the `subscriptionRef`, the set of channels currently open
(live) at the supabase client, a fresh-id counter, and the number of
in-flight `fetchData` calls. -/
structure OccWorld where
  occ : OccState
  subRef : Option Channel
  live : List Channel
  nextId : Nat
  pendingFetch : Nat
deriving DecidableEq

/-- Initial world: fresh state cells, no subscription, nothing live. -/
def occWorld0 : OccWorld :=
  { occ := occState0, subRef := none, live := [], nextId := 0, pendingFetch := 0 }

/-- Atomic steps of the effect lifecycle:
`runCleanup` is one invocation of `cleanup`; `openNew k` is
`supabase.channel(...).on(...).subscribe()` plus storing the ref;
`startFetch` is the synchronous prefix of `fetchData` (`setLoading(true)`
and issuing the reads); `resolveFetch` is the continuation of an
in-flight `fetchData` applying its setters with the read outcomes. -/
inductive MicroOp where
  | runCleanup
  | openNew (key : String)
  | startFetch
  | resolveFetch (rEvent : ReadResult (Option Int)) (rAtt : ReadResult Int)
deriving DecidableEq

/-- One atomic step.  Note that `resolveFetch` applies the fetched
values unconditionally: the source has no "defunct" flag, so nothing
ties a resolution to the activation that started it. -/
def microStep (w : OccWorld) : MicroOp → OccWorld
  | MicroOp.runCleanup =>
    match w.subRef with
    | some c => { w with subRef := none, live := w.live.filter (fun d => d.id != c.id) }
    | none => w
  | MicroOp.openNew k =>
    let c : Channel := { id := w.nextId, key := k }
    { w with subRef := some c, live := c :: w.live, nextId := w.nextId + 1 }
  | MicroOp.startFetch =>
    { w with occ := { w.occ with loading := true }, pendingFetch := w.pendingFetch + 1 }
  | MicroOp.resolveFetch rEvent rAtt =>
    match w.pendingFetch with
    | 0 => w
    | n + 1 => { w with occ := fetchData rEvent rAtt w.occ, pendingFetch := n }

/-- Run a sequence of atomic steps. -/
def microRun (l : List MicroOp) (w : OccWorld) : OccWorld := l.foldl microStep w

/-- All states visited while running a sequence of steps (initial state
included). -/
def statesOf : List MicroOp → OccWorld → List OccWorld
  | [], w => [w]
  | op :: rest, w => w :: statesOf rest (microStep w op)

/-- The channel open/close events a step emits. -/
inductive ChannelEvent where
  | closeChan (id : Nat)
  | openChan (id : Nat) (key : String)
deriving DecidableEq

/-- Events emitted by one step from a given state: `cleanup` emits a
close for the referenced channel (none otherwise), `openNew` emits an
open for the fresh channel. -/
def opEvents (w : OccWorld) : MicroOp → List ChannelEvent
  | MicroOp.runCleanup =>
    match w.subRef with
    | some c => [ChannelEvent.closeChan c.id]
    | none => []
  | MicroOp.openNew k => [ChannelEvent.openChan w.nextId k]
  | _ => []

/-- The event log of a run. -/
def traceEvents : OccWorld → List MicroOp → List ChannelEvent
  | _, [] => []
  | w, op :: rest => opEvents w op ++ traceEvents (microStep w op) rest

/-- The effect body for a `currentEventId` value, as a step sequence
(statement order of the source). -/
def effectOps : Option String → List MicroOp
  | none => [MicroOp.runCleanup]
  | some k => [MicroOp.runCleanup, MicroOp.openNew k, MicroOp.startFetch]

/-- Steps for the second and later renders of a key sequence: React
runs the previous effect's destructor (`cleanup`) before each body. -/
def interEffects : List (Option String) → List MicroOp
  | [] => []
  | k :: rest => MicroOp.runCleanup :: (effectOps k ++ interEffects rest)

/-- The full step sequence for a mounted instance that sees the given
sequence of `currentEventId` values and then unmounts (final destructor). -/
def fullTrace (keys : List (Option String)) : List MicroOp :=
  (match keys with
   | [] => []
   | k :: rest => effectOps k ++ interEffects rest) ++ [MicroOp.runCleanup]

/-- The lifecycle invariant: the subscription ref and the live-channel
set agree (no ref → nothing live, a ref → exactly that channel live). -/
def occInv (w : OccWorld) : Prop :=
  (w.subRef = none → w.live = []) ∧ ∀ c, w.subRef = some c → w.live = [c]

/-! ## Dashboard incident-stats lifecycle

The `Dashboard` `useEffect` (deps `[]`):
`checkCurrentEvent(); fetchIncidentStats(); cleanup(); subscribe`, with
destructor `cleanup`.  (`checkCurrentEvent` only touches
`currentEventId`/`hasCurrentEvent` and is not modelled.)  As above, the
resolution of `fetchIncidentStats` applies `setIncidentStats`
unconditionally — there is no staleness guard. -/

/-- Non-render state of the `Dashboard` instance. -/
structure DashWorld where
  incidentStats : IncidentStats
  subRef : Option Nat
  live : List Nat
  nextId : Nat
  pendingStats : Nat
deriving DecidableEq

/-- Initial `Dashboard` world. -/
def dashWorld0 : DashWorld :=
  { incidentStats := stats0, subRef := none, live := [], nextId := 0, pendingStats := 0 }

/-- Atomic steps of the `Dashboard` effect lifecycle. -/
inductive DashOp where
  | runCleanup
  | openChan
  | startStatsFetch
  | resolveStats (r : StatsRead)
deriving DecidableEq

/-- One atomic `Dashboard` step. -/
def dashStep (w : DashWorld) : DashOp → DashWorld
  | DashOp.runCleanup =>
    match w.subRef with
    | some c => { w with subRef := none, live := w.live.filter (fun d => d != c) }
    | none => w
  | DashOp.openChan =>
    { w with subRef := some w.nextId, live := w.nextId :: w.live, nextId := w.nextId + 1 }
  | DashOp.startStatsFetch => { w with pendingStats := w.pendingStats + 1 }
  | DashOp.resolveStats r =>
    match w.pendingStats with
    | 0 => w
    | n + 1 => { w with incidentStats := fetchIncidentStats r w.incidentStats,
                        pendingStats := n }

/-- Run a sequence of `Dashboard` steps. -/
def dashRun (l : List DashOp) (w : DashWorld) : DashWorld := l.foldl dashStep w

/-- The mount-effect body of `Dashboard` (statement order of the source:
the stats fetch is issued before the defensive cleanup and the
subscribe). -/
def dashMountOps : List DashOp :=
  [DashOp.startStatsFetch, DashOp.runCleanup, DashOp.openChan]

/-- An incident used in concrete scenarios: an open `Ejection` with no
action taken. -/
def openEjection : Incident :=
  { incident_type := "Ejection", is_closed := false, action_taken := false }

/-- A `Sit Rep` incident (informational log entry). -/
def sitRepIncident : Incident :=
  { incident_type := "Sit Rep", is_closed := false, action_taken := false }

/-- A closed `Refusal` incident. -/
def closedRefusal : Incident :=
  { incident_type := "Refusal", is_closed := true, action_taken := false }

/-! ## Next-Event Selector (`TimeCard.fetchEventTimings`) -/

/-- Minutes since midnight of an `(hours, minutes)` clock time
(`hours * 60 + minutes` in the source). -/
def toMinutes (t : Nat × Nat) : Nat := t.1 * 60 + t.2

/-- The event row fields read by `fetchEventTimings`; each schedule time
is either unset (`none` models null/empty, which the source's truthiness
filter discards) or an `(hours, minutes)` clock time. -/
structure EventRow where
  security_call_time : Option (Nat × Nat)
  main_act_start_time : Option (Nat × Nat)
  show_down_time : Option (Nat × Nat)
  show_stop_meeting_time : Option (Nat × Nat)
  doors_open_time : Option (Nat × Nat)
  curfew_time : Option (Nat × Nat)
  event_name : String
deriving DecidableEq

/-- An element of `timingsWithMinutes` in the source: title, clock time,
and its minutes since midnight. -/
structure TimingM where
  title : String
  time : Nat × Nat
  minutesSinceMidnight : Nat
deriving DecidableEq

/-- An element of the rendered schedule list (`EventTiming` in the
source, with clock times kept structured). -/
structure EventTiming where
  title : String
  time : Nat × Nat
  isNext : Bool
deriving DecidableEq

/-- The literal `timings` array before the truthiness filter, in the
stated field order of the source. -/
def rawTimings (e : EventRow) : List (String × Option (Nat × Nat)) :=
  [("Security Call", e.security_call_time),
   ("Doors Open", e.doors_open_time),
   (e.event_name, e.main_act_start_time),
   ("Show Stop Meeting", e.show_stop_meeting_time),
   ("Show Down", e.show_down_time),
   ("Curfew", e.curfew_time)]

/-- `.filter(timing => timing.time)`: keep only the set fields. -/
def setTimings (e : EventRow) : List (String × (Nat × Nat)) :=
  (rawTimings e).filterMap (fun p => p.2.map (fun t => (p.1, t)))

/-- `timingsWithMinutes`: attach minutes since midnight. -/
def timingsWithMinutes (e : EventRow) : List TimingM :=
  (setTimings e).map (fun p =>
    { title := p.1, time := p.2, minutesSinceMidnight := toMinutes p.2 })

/-- `.filter(t => t.minutesSinceMidnight > currentTimeNumber)`. -/
def filteredTimings (e : EventRow) (currentTimeNumber : Nat) : List TimingM :=
  (timingsWithMinutes e).filter (fun t => decide (currentTimeNumber < t.minutesSinceMidnight))

/-- Stable insertion of an element into a list already sorted by
`minutesSinceMidnight`: it lands after every element with an equal or
smaller key. -/
def insertByMinutes (x : TimingM) : List TimingM → List TimingM
  | [] => [x]
  | y :: ys =>
    if y.minutesSinceMidnight ≤ x.minutesSinceMidnight then y :: insertByMinutes x ys
    else x :: y :: ys

/-- `.sort((a, b) => a.minutesSinceMidnight - b.minutesSinceMidnight)`:
JavaScript sort is stable, modelled as stable insertion sort. -/
def stableSortByMinutes (l : List TimingM) : List TimingM :=
  l.foldl (fun acc x => insertByMinutes x acc) []

/-- `futureTimings` in the source: the future entries, sorted. -/
def futureTimings (e : EventRow) (currentTimeNumber : Nat) : List TimingM :=
  stableSortByMinutes (filteredTimings e currentTimeNumber)

/-- Attach positions `n, n+1, …` to a list (instrumentation used to
state stability of the sort; not part of the source). -/
def withIdx {α : Type} : Nat → List α → List (Nat × α)
  | _, [] => []
  | n, x :: xs => (n, x) :: withIdx (n + 1) xs

/-- The projection applied by
`.slice(0, 3).map((timing, index) => ({..., isNext: index === 0}))`. -/
def projTiming (p : Nat × TimingM) : EventTiming :=
  { title := p.2.title, time := p.2.time, isNext := p.1 == 0 }

/-- `nextThreeTimings` in the source: first three future entries, the
first flagged as next. -/
def nextThreeTimings (e : EventRow) (currentTimeNumber : Nat) : List EventTiming :=
  (withIdx 0 ((futureTimings e currentTimeNumber).take 3)).map projTiming

/-- Position-instrumented copy of `insertByMinutes` (same comparisons,
elements carry their original position). -/
def insertIdxByMinutes (x : Nat × TimingM) : List (Nat × TimingM) → List (Nat × TimingM)
  | [] => [x]
  | y :: ys =>
    if y.2.minutesSinceMidnight ≤ x.2.minutesSinceMidnight then y :: insertIdxByMinutes x ys
    else x :: y :: ys

/-- Position-instrumented copy of `stableSortByMinutes`. -/
def stableSortIdxByMinutes (l : List (Nat × TimingM)) : List (Nat × TimingM) :=
  l.foldl (fun acc x => insertIdxByMinutes x acc) []

/-- The sorted future entries carrying their original positions in the
stated field order. -/
def sortedIndexedFuture (e : EventRow) (currentTimeNumber : Nat) : List (Nat × TimingM) :=
  stableSortIdxByMinutes (withIdx 0 (filteredTimings e currentTimeNumber))

/-- Strict lexicographic order on (minutes since midnight, original
position): the order realised by a stable ascending sort on minutes. -/
def timeIdxLt (a b : Nat × TimingM) : Prop :=
  a.2.minutesSinceMidnight < b.2.minutesSinceMidnight ∨
    (a.2.minutesSinceMidnight = b.2.minutesSinceMidnight ∧ a.1 < b.1)

/-- The spec's example schedule: Doors Open 18:00, Main Act 20:00,
Curfew 23:00 (reference current time 19:00 = 1140 minutes). -/
def exampleEventRow : EventRow :=
  { security_call_time := none, main_act_start_time := some (20, 0),
    show_down_time := none, show_stop_meeting_time := none,
    doors_open_time := some (18, 0), curfew_time := some (23, 0),
    event_name := "Main Act" }

/-! # Theorems -/

/-- **C4**: the Incident Statistics Aggregator computes its buckets exactly
as defined: total counts all records; high-priority counts categories in
{Ejection, Code Green, Code Black, Code Pink}; logged counts Sit Rep
records; open counts non-Sit-Rep unclosed records; in-progress counts
non-Sit-Rep unclosed records with an action taken; closed counts
non-Sit-Rep closed records; refusals and ejections are exact category
matches; and on one Sit Rep, one open Ejection and one closed Refusal it
yields total=3, high=1, open=1, closed=1, logged=1, refusals=1,
ejections=1. -/
theorem C4_incident_stats_buckets (incidents : List Incident) :
    (computeIncidentStats incidents).total = incidents.length
    ∧ (computeIncidentStats incidents).high = incidents.countP (fun i =>
        i.incident_type == "Ejection" || i.incident_type == "Code Green" ||
        i.incident_type == "Code Black" || i.incident_type == "Code Pink")
    ∧ (computeIncidentStats incidents).logged =
        incidents.countP (fun i => i.incident_type == "Sit Rep")
    ∧ (computeIncidentStats incidents).openCount =
        incidents.countP (fun i => i.incident_type != "Sit Rep" && !i.is_closed)
    ∧ (computeIncidentStats incidents).inProgress =
        incidents.countP (fun i =>
          i.incident_type != "Sit Rep" && (!i.is_closed && i.action_taken))
    ∧ (computeIncidentStats incidents).closedCount =
        incidents.countP (fun i => i.incident_type != "Sit Rep" && i.is_closed)
    ∧ (computeIncidentStats incidents).refusals =
        incidents.countP (fun i => i.incident_type == "Refusal")
    ∧ (computeIncidentStats incidents).ejections =
        incidents.countP (fun i => i.incident_type == "Ejection")
    ∧ computeIncidentStats [sitRepIncident, openEjection, closedRefusal] =
        { total := 3, high := 1, openCount := 1, inProgress := 0, closedCount := 1,
          logged := 1, avgResolution := 0, refusals := 1, ejections := 1, medical := 0 } := by
  refine ⟨rfl, ?_, ?_, ?_, ?_, ?_, ?_, ?_, by decide⟩
  · simp only [computeIncidentStats, List.countP_eq_length_filter]
    congr 1
    apply List.filter_congr
    intro i _
    simp only [List.contains, List.elem_cons, List.elem_nil, Bool.or_false]
    cases h1 : i.incident_type == "Ejection" <;>
      cases h2 : i.incident_type == "Code Green" <;>
      cases h3 : i.incident_type == "Code Black" <;>
      cases h4 : i.incident_type == "Code Pink" <;> simp [h1, h2, h3, h4]
  · simp only [computeIncidentStats, List.countP_eq_length_filter]
  · simp only [computeIncidentStats, List.countP_eq_length_filter, List.filter_filter]
    congr 1
    apply List.filter_congr
    intro i _
    exact Bool.and_comm _ _
  · simp only [computeIncidentStats, List.countP_eq_length_filter, List.filter_filter]
    congr 1
    apply List.filter_congr
    intro i _
    cases i.incident_type != "Sit Rep" <;> cases i.is_closed <;> cases i.action_taken <;> rfl
  · simp only [computeIncidentStats, List.countP_eq_length_filter, List.filter_filter]
    congr 1
    apply List.filter_congr
    intro i _
    exact Bool.and_comm _ _
  · simp only [computeIncidentStats, List.countP_eq_length_filter]
  · simp only [computeIncidentStats, List.countP_eq_length_filter]

/-- **C6**: for nonnegative count and positive capacity, the displayed
percentage is the half-up nearest integer of `100 * count / capacity`
with no clamping (so `4000 / 3500` displays `114`), the bar width is
clamped at `100`, the over-capacity label shows exactly when the count
strictly exceeds the capacity, and the status color is normal below 90%
of capacity, warning from 90% up to and including 100%, and
over-capacity above 100%. -/
theorem C6_occupancy_display (count cap : Int) (_hc : 0 ≤ count) (hcap : 0 < cap) :
    2 * cap * occupancyPercent count cap ≤ 2 * (count * 100) + cap
    ∧ 2 * (count * 100) + cap < 2 * cap * (occupancyPercent count cap + 1)
    ∧ occupancyPercent 4000 3500 = 114
    ∧ barWidthPercent count cap ≤ 100
    ∧ (occupancyPercent count cap ≤ 100 → barWidthPercent count cap = occupancyPercent count cap)
    ∧ (overCapacityFlag count cap = true ↔ cap < count)
    ∧ (occupancyColor count cap = OccupancyColor.normal ↔ 10 * count < 9 * cap)
    ∧ (occupancyColor count cap = OccupancyColor.warning ↔ 9 * cap ≤ 10 * count ∧ count ≤ cap)
    ∧ (occupancyColor count cap = OccupancyColor.overCapacity ↔ cap < count)
    ∧ occupancySection count cap = some
        { percentDisplayed := occupancyPercent count cap
          barWidth := barWidthPercent count cap
          color := occupancyColor count cap
          overFlag := overCapacityFlag count cap } := by
  have hb : (0 : Int) < 2 * cap := by linarith
  have hq : occupancyPercent count cap = (2 * (count * 100) + cap) / (2 * cap) := by
    unfold occupancyPercent jsRound
    exact Int.fdiv_eq_ediv _ (le_of_lt hb)
  have hid := Int.ediv_add_emod (2 * (count * 100) + cap) (2 * cap)
  have hr0 := Int.emod_nonneg (2 * (count * 100) + cap) (ne_of_gt hb)
  have hrlt := Int.emod_lt_of_pos (2 * (count * 100) + cap) hb
  refine ⟨?_, ?_, by decide, min_le_right _ _, fun hle => min_eq_left hle, ?_, ?_, ?_, ?_, ?_⟩
  · rw [hq]; linarith
  · rw [hq]
    have hx : 2 * cap * ((2 * (count * 100) + cap) / (2 * cap) + 1)
        = 2 * cap * ((2 * (count * 100) + cap) / (2 * cap)) + 2 * cap := by ring
    linarith [hx]
  · simp [overCapacityFlag]
  · unfold occupancyColor
    split_ifs with h1 h2 <;> simp_all
    omega
  · unfold occupancyColor
    split_ifs with h1 h2 <;> simp_all
  · unfold occupancyColor
    split_ifs with h1 h2 <;> simp_all
  · unfold occupancySection
    rw [if_pos hcap]

/-- **C6 witness**: the theorem instantiated at count = 4000,
capacity = 3500 (the spec's concrete example). -/
theorem C6_occupancy_display_witness :
    (0 : Int) ≤ 4000 ∧ (0 : Int) < 3500 ∧
      (occupancyPercent 4000 3500 = 114 ∧ overCapacityFlag 4000 3500 = true
        ∧ barWidthPercent 4000 3500 = 100) :=
  ⟨by decide, by decide, (C6_occupancy_display 4000 3500 (by decide) (by decide)).2.2.1,
    ((C6_occupancy_display 4000 3500 (by decide) (by decide)).2.2.2.2.2.1).mpr (by decide),
    by decide⟩

/-- **C7**: with a venue capacity of zero the guarded occupancy block is
suppressed entirely (no bar, no percentage, and none of the divisions by
the capacity are evaluated). -/
theorem C7_zero_capacity_suppressed (count : Int) : occupancySection count 0 = none := by
  simp [occupancySection]

/-- **C9**: the attendance INSERT and UPDATE handlers set the current
count to the payload's new-row count exactly when that row is present
and its `count` field is a number; any malformed payload (missing row or
non-numeric count) leaves the state unchanged. -/
theorem C9_attendance_payload_guard (p : AttendancePayload) (s : OccState) :
    (∀ row n, p.newRow = some row → row.count = some (JsonVal.num n) →
      handleAttendanceInsert p s = { s with currentCount := n }
      ∧ handleAttendanceUpdate p s = { s with currentCount := n })
    ∧ ((∀ row n, p.newRow = some row → row.count ≠ some (JsonVal.num n)) →
      handleAttendanceInsert p s = s ∧ handleAttendanceUpdate p s = s) := by
  constructor
  · intro row n h1 h2
    constructor <;> simp [handleAttendanceInsert, handleAttendanceUpdate, h1, h2]
  · intro hno
    cases hp : p.newRow with
    | none => simp [handleAttendanceInsert, handleAttendanceUpdate, hp]
    | some row =>
      cases hc : row.count with
      | none => simp [handleAttendanceInsert, handleAttendanceUpdate, hp, hc]
      | some v =>
        cases v with
        | num n => exact absurd hc (hno row n hp)
        | str t => simp [handleAttendanceInsert, handleAttendanceUpdate, hp, hc]
        | boolean b => simp [handleAttendanceInsert, handleAttendanceUpdate, hp, hc]
        | null => simp [handleAttendanceInsert, handleAttendanceUpdate, hp, hc]

/-- **C9 witness**: a well-formed INSERT payload with count 42 applied to
the initial state stores 42. -/
theorem C9_attendance_payload_guard_witness :
    handleAttendanceInsert { newRow := some { count := some (JsonVal.num 42) } } occState0
      = { occState0 with currentCount := 42 }
    ∧ handleAttendanceUpdate { newRow := some { count := some (JsonVal.num 42) } } occState0
      = { occState0 with currentCount := 42 } :=
  (C9_attendance_payload_guard { newRow := some { count := some (JsonVal.num 42) } }
    occState0).1 { count := some (JsonVal.num 42) } 42 rfl rfl

/-- **C8 counterexample**: the claim says a caught read error makes both
fetchers fall back to the neutral defaults (zeroed stats included), but
`fetchIncidentStats` only logs in its catch block: with prior stats
having total 7, a raised error leaves total = 7, not 0. -/
theorem C8_error_fallback_counterexample :
    (fetchIncidentStats StatsRead.raised
      { total := 7, high := 2, openCount := 3, inProgress := 1, closedCount := 2,
        logged := 2, avgResolution := 0, refusals := 1, ejections := 1, medical := 0 }).total = 7
    ∧ (7 : Nat) ≠ 0 := ⟨rfl, by decide⟩

/-- **C8 amended**: on a read error raised during `fetchData` (event read
error, or attendance error other than the no-rows code `PGRST116`) the
catch block logs and falls back to count 0 and the default capacity 3500
(with loading cleared), and the function returns a state rather than
propagating; `fetchIncidentStats` catches and logs a raised error but
leaves the previous stats in place (which equal the zeroed defaults only
if they were never updated). -/
theorem C8_error_fallback_amended (c code : String) (vc : Option Int)
    (rAtt : ReadResult Int) (s : OccState) (stats : IncidentStats)
    (hcode : code ≠ "PGRST116") :
    fetchData (ReadResult.err c) rAtt s
      = { currentCount := 0, loading := false, venueCapacity := 3500 }
    ∧ fetchData (ReadResult.ok vc) (ReadResult.err code) s
      = { currentCount := 0, loading := false, venueCapacity := 3500 }
    ∧ fetchIncidentStats StatsRead.raised stats = stats := by
  have hcode' : (code != "PGRST116") = true := by simpa using hcode
  refine ⟨rfl, ?_, rfl⟩
  cases vc with
  | none => simp [fetchData, fetchDataBody, hcode']
  | some v =>
    by_cases hv : v = 0
    · simp [fetchData, fetchDataBody, hcode', hv]
    · have hv' : (v != 0) = true := by simpa using hv
      simp [fetchData, fetchDataBody, hcode', hv']

/-- **C8 amended witness**: the amended theorem at concrete error
outcomes. -/
theorem C8_error_fallback_amended_witness :
    ("500" : String) ≠ "PGRST116"
    ∧ (fetchData (ReadResult.err "boom") (ReadResult.ok 5) occState0
        = { currentCount := 0, loading := false, venueCapacity := 3500 }
      ∧ fetchData (ReadResult.ok none) (ReadResult.err "500") occState0
        = { currentCount := 0, loading := false, venueCapacity := 3500 }
      ∧ fetchIncidentStats StatsRead.raised stats0 = stats0) :=
  ⟨by decide,
    C8_error_fallback_amended "boom" "500" none (ReadResult.ok 5) occState0 stats0 (by decide)⟩

/-- **C10 counterexample**: the claim says a non-truthy `venue_capacity`
always leaves the stored capacity at its prior value, but when the
attendance read then raises (code other than `PGRST116`) the catch
block resets the capacity to the 3500 default: with prior capacity 1000
and a zero capacity field, the fetch ends with capacity 3500, not 1000. -/
theorem C10_capacity_truthy_counterexample :
    (fetchData (ReadResult.ok (some 0)) (ReadResult.err "22003")
      { currentCount := 0, loading := false, venueCapacity := 1000 }).venueCapacity = 3500
    ∧ (3500 : Int) ≠ 1000 := ⟨rfl, by decide⟩

/-- **C10 amended**: when the fetch completes without a thrown error, the
capacity is overwritten exactly when the fetched `venue_capacity` field
is truthy (absent, null, or zero keeps the prior value); on a thrown
error the catch block resets it to the default 3500; in every case a
nonzero prior capacity never ends up zero, so a backend-stored capacity
of zero never becomes the displayed capacity through the fetch path. -/
theorem C10_capacity_truthy_amended (v : Int) (rA : ReadResult Int)
    (rE : ReadResult (Option Int)) (rA2 : ReadResult Int) (s : OccState)
    (hA : attNonThrowing rA = true) (hv : v ≠ 0) (hs : s.venueCapacity ≠ 0) :
    (fetchData (ReadResult.ok none) rA s).venueCapacity = s.venueCapacity
    ∧ (fetchData (ReadResult.ok (some 0)) rA s).venueCapacity = s.venueCapacity
    ∧ (fetchData (ReadResult.ok (some v)) rA s).venueCapacity = v
    ∧ (fetchData rE rA2 s).venueCapacity ≠ 0 := by
  have hv' : (v != 0) = true := by simpa using hv
  have hcase : ∀ code : String, attNonThrowing (ReadResult.err code) = true →
      code = "PGRST116" := by
    intro code hcode
    simpa [attNonThrowing] using hcode
  refine ⟨?_, ?_, ?_, ?_⟩
  · cases rA with
    | ok c => rfl
    | err code => simp [fetchData, fetchDataBody, hcase code hA]
  · cases rA with
    | ok c => rfl
    | err code => simp [fetchData, fetchDataBody, hcase code hA]
  · cases rA with
    | ok c => simp [fetchData, fetchDataBody, hv']
    | err code => simp [fetchData, fetchDataBody, hcase code hA, hv']
  · cases rE with
    | err code => norm_num [fetchData, fetchDataBody]
    | ok vcap =>
      cases rA2 with
      | ok c =>
        cases vcap with
        | none => simpa [fetchData, fetchDataBody] using hs
        | some v2 =>
          by_cases hv2 : v2 = 0
          · subst hv2
            simpa [fetchData, fetchDataBody] using hs
          · have hv2' : (v2 != 0) = true := by simpa using hv2
            simpa [fetchData, fetchDataBody, hv2'] using hv2
      | err code2 =>
        by_cases hc : code2 = "PGRST116"
        · subst hc
          cases vcap with
          | none => simpa [fetchData, fetchDataBody] using hs
          | some v2 =>
            by_cases hv2 : v2 = 0
            · subst hv2
              simpa [fetchData, fetchDataBody] using hs
            · have hv2' : (v2 != 0) = true := by simpa using hv2
              simpa [fetchData, fetchDataBody, hv2'] using hv2
        · have hc' : (code2 != "PGRST116") = true := by simpa using hc
          cases vcap with
          | none => norm_num [fetchData, fetchDataBody, hc']
          | some v2 =>
            by_cases hv2 : v2 = 0
            · subst hv2
              norm_num [fetchData, fetchDataBody, hc']
            · have hv2' : (v2 != 0) = true := by simpa using hv2
              norm_num [fetchData, fetchDataBody, hc', hv2']

/-- **C5**: the countdown clock targets today at the next entry's
time-of-day, rolling forward by exactly one day exactly when the
computed today-instant is already strictly past; the target is never in
the past, the remaining duration is a whole number of seconds emitted as
whole hours, minutes (< 60) and seconds (< 60); at 19:59:30 against a
20:00 target it renders "0h 0m 30s", and at 20:00:01 the recomputed
target is tomorrow at 20:00.  `now` is milliseconds since today's
midnight; the source keeps the millisecond component of `now` in the
target (`setHours(h, m, 0)` zeroes only the seconds). -/
theorem C5_countdown_clock (h m now : Nat) (hh : h < 24) (hm : m < 60)
    (hnow : now < 86400000) :
    ((h * 60 + m) * 60000 + now % 1000 < now →
      countdownTarget h m now = (h * 60 + m) * 60000 + now % 1000 + 86400000
      ∧ countdownTarget h m now / 86400000 = 1)
    ∧ (now ≤ (h * 60 + m) * 60000 + now % 1000 →
      countdownTarget h m now = (h * 60 + m) * 60000 + now % 1000
      ∧ countdownTarget h m now / 86400000 = 0)
    ∧ countdownTarget h m now % 86400000 / 60000 = h * 60 + m
    ∧ now ≤ countdownTarget h m now
    ∧ (countdownTarget h m now - now) % 1000 = 0
    ∧ (countdownParts h m now).1 * 3600 + (countdownParts h m now).2.1 * 60
        + (countdownParts h m now).2.2 = (countdownTarget h m now - now) / 1000
    ∧ (countdownParts h m now).2.1 < 60
    ∧ (countdownParts h m now).2.2 < 60
    ∧ countdownString 20 0 71970000 = "0h 0m 30s"
    ∧ countdownTarget 20 0 72001000 = 86400000 + 72000000 := by
  have key : ∀ diff : Nat,
      diff / 3600000 * 3600 + diff % 3600000 / 60000 * 60 + diff % 60000 / 1000 = diff / 1000
      ∧ diff % 3600000 / 60000 < 60 ∧ diff % 60000 / 1000 < 60 := by
    intro diff
    omega
  refine ⟨?_, ?_, ?_, ?_, ?_, ?_, ?_, ?_, rfl, rfl⟩
  · intro hb
    simp only [countdownTarget, if_pos hb, true_and]
    omega
  · intro hb
    have hb' : ¬((h * 60 + m) * 60000 + now % 1000 < now) := Nat.not_lt.mpr hb
    simp only [countdownTarget, if_neg hb', true_and]
    omega
  · by_cases hb : (h * 60 + m) * 60000 + now % 1000 < now
    · simp only [countdownTarget, if_pos hb]
      omega
    · simp only [countdownTarget, if_neg hb]
      omega
  · by_cases hb : (h * 60 + m) * 60000 + now % 1000 < now
    · simp only [countdownTarget, if_pos hb]
      omega
    · simp only [countdownTarget, if_neg hb]
      omega
  · by_cases hb : (h * 60 + m) * 60000 + now % 1000 < now
    · simp only [countdownTarget, if_pos hb]
      omega
    · simp only [countdownTarget, if_neg hb]
      omega
  · simpa only [countdownParts] using (key (countdownTarget h m now - now)).1
  · simpa only [countdownParts] using (key (countdownTarget h m now - now)).2.1
  · simpa only [countdownParts] using (key (countdownTarget h m now - now)).2.2

/-- **C5 witness**: the theorem applied at the spec's concrete instant
19:59:30 (71970000 ms) against a 20:00 target. -/
theorem C5_countdown_clock_witness :
    20 < 24 ∧ (0 : Nat) < 60 ∧ 71970000 < 86400000
    ∧ countdownString 20 0 71970000 = "0h 0m 30s" :=
  ⟨by decide, by decide, by decide,
    ((C5_countdown_clock 20 0 71970000 (by decide) (by decide)
      (by decide)).2.2.2.2.2.2.2.2).1⟩

/-- **C1**: evidence against the claim that a snapshot read resolving
after deactivation leaves the retained state unchanged.  In the
occupancy view: activate for event "A" (the fetch starts), deactivate
(the effect cleanup runs, then the effect re-runs with no key), and only
then let the fetch resolve with capacity 2000 and count 250 — the
resolution applies its setters unconditionally (the source has no
defunct flag), overwriting `currentCount`, `venueCapacity` and
`loading`.  In the dashboard: mount (the stats fetch starts), unmount
(cleanup), then let the stats fetch resolve over one open ejection — the
resolution overwrites `incidentStats` (total goes from 0 to 1). -/
theorem C1_stale_fetch_mutates_state :
    (microRun (effectOps (some "A") ++ [MicroOp.runCleanup] ++ effectOps none) occWorld0).occ
      = { currentCount := 0, loading := true, venueCapacity := 3500 }
    ∧ (microRun (effectOps (some "A") ++ [MicroOp.runCleanup] ++ effectOps none
        ++ [MicroOp.resolveFetch (ReadResult.ok (some 2000)) (ReadResult.ok 250)])
        occWorld0).occ
      = { currentCount := 250, loading := false, venueCapacity := 2000 }
    ∧ (dashRun (dashMountOps ++ [DashOp.runCleanup]) dashWorld0).incidentStats = stats0
    ∧ (dashRun (dashMountOps ++ [DashOp.runCleanup,
        DashOp.resolveStats (StatsRead.ok (some "E") (some [openEjection]))])
        dashWorld0).incidentStats.total = 1
    ∧ stats0.total = 0 :=
  ⟨rfl, rfl, rfl, rfl, rfl⟩

/-- Helper: the lifecycle invariant bounds the number of live channels. -/
theorem occInv_live_length {w : OccWorld} (h : occInv w) : w.live.length ≤ 1 := by
  cases hr : w.subRef with
  | none => simp [h.1 hr]
  | some c => simp [h.2 c hr]

/-- Helper: one `cleanup` invocation preserves the invariant and leaves
the subscription ref null. -/
theorem occInv_cleanup {w : OccWorld} (h : occInv w) :
    occInv (microStep w MicroOp.runCleanup)
    ∧ (microStep w MicroOp.runCleanup).subRef = none := by
  cases hr : w.subRef with
  | none =>
    have hstep : microStep w MicroOp.runCleanup = w := by
      simp [microStep, hr]
    rw [hstep]
    exact ⟨h, hr⟩
  | some c =>
    have hl : w.live = [c] := h.2 c hr
    have hstep : microStep w MicroOp.runCleanup
        = { w with subRef := none, live := w.live.filter (fun d => d.id != c.id) } := by
      simp [microStep, hr]
    rw [hstep]
    refine ⟨⟨fun _ => ?_, fun d hd => ?_⟩, rfl⟩
    · simp [hl]
    · simp at hd

/-- Helper: opening a channel from a state with no subscription ref
restores the invariant. -/
theorem occInv_open {w : OccWorld} (k : String) (h : occInv w) (hr : w.subRef = none) :
    occInv (microStep w (MicroOp.openNew k)) := by
  have hl : w.live = [] := h.1 hr
  constructor
  · intro hc
    exact absurd hc (by simp [microStep])
  · intro d hd
    have hde : ({ id := w.nextId, key := k } : Channel) = d := by
      simpa [microStep] using hd
    simp [microStep, hl, ← hde]

/-- Helper: fetch start and fetch resolution do not touch the
subscription ref or the live channels, so they preserve the invariant. -/
theorem occInv_fetch {w : OccWorld} (h : occInv w) :
    occInv (microStep w MicroOp.startFetch)
    ∧ ∀ rE rA, occInv (microStep w (MicroOp.resolveFetch rE rA)) := by
  constructor
  · exact h
  · intro rE rA
    cases hp : w.pendingFetch with
    | zero =>
      have hstep : microStep w (MicroOp.resolveFetch rE rA) = w := by
        simp [microStep, hp]
      rw [hstep]
      exact h
    | succ n =>
      have hstep : microStep w (MicroOp.resolveFetch rE rA)
          = { w with occ := fetchData rE rA w.occ, pendingFetch := n } := by
        simp [microStep, hp]
      rw [hstep]
      exact h

/-- Helper: running a concatenation visits the states of the first part,
then the states of the second part from the first part's final state. -/
theorem mem_statesOf_append {w v : OccWorld} {l1 l2 : List MicroOp}
    (hv : v ∈ statesOf (l1 ++ l2) w) :
    v ∈ statesOf l1 w ∨ v ∈ statesOf l2 (microRun l1 w) := by
  induction l1 generalizing w with
  | nil => exact Or.inr hv
  | cons op rest ih =>
    simp only [List.cons_append, statesOf, List.mem_cons] at hv
    rcases hv with hveq | hv2
    · exact Or.inl (by simp [statesOf, hveq])
    · rcases ih hv2 with h1 | h2
      · exact Or.inl (by simp [statesOf, h1])
      · exact Or.inr h2

/-- Helper: `microRun` distributes over concatenation. -/
theorem microRun_append (l1 l2 : List MicroOp) (w : OccWorld) :
    microRun (l1 ++ l2) w = microRun l2 (microRun l1 w) := by
  simp [microRun, List.foldl_append]

/-- Helper: one effect body keeps at most one channel live at every
intermediate state and re-establishes the invariant. -/
theorem effect_segment {w : OccWorld} (k : Option String) (h : occInv w) :
    (∀ v ∈ statesOf (effectOps k) w, v.live.length ≤ 1)
    ∧ occInv (microRun (effectOps k) w) := by
  cases k with
  | none =>
    have h1 := occInv_cleanup h
    constructor
    · intro v hv
      simp only [effectOps, statesOf, List.mem_cons, List.mem_singleton,
        List.not_mem_nil, or_false] at hv
      rcases hv with rfl | rfl
      · exact occInv_live_length h
      · exact occInv_live_length h1.1
    · exact h1.1
  | some key =>
    have h1 := occInv_cleanup h
    have h2 := occInv_open key h1.1 h1.2
    have h3 := (occInv_fetch h2).1
    constructor
    · intro v hv
      simp only [effectOps, statesOf, List.mem_cons, List.not_mem_nil, or_false] at hv
      rcases hv with rfl | rfl | rfl | rfl
      · exact occInv_live_length h
      · exact occInv_live_length h1.1
      · exact occInv_live_length h2
      · exact occInv_live_length h3
    · exact h3

/-- Helper: the inter-render segments (previous destructor, then the
next body, repeatedly) keep at most one channel live throughout. -/
theorem interEffects_segment (keys : List (Option String)) :
    ∀ w : OccWorld, occInv w →
    (∀ v ∈ statesOf (interEffects keys) w, v.live.length ≤ 1)
    ∧ occInv (microRun (interEffects keys) w) := by
  induction keys with
  | nil =>
    intro w h
    constructor
    · intro v hv
      simp only [interEffects, statesOf, List.mem_singleton] at hv
      subst hv
      exact occInv_live_length h
    · exact h
  | cons k rest ih =>
    intro w h
    have h1 := occInv_cleanup h
    have heff := effect_segment k h1.1
    have hih := ih (microRun (effectOps k) (microStep w MicroOp.runCleanup)) heff.2
    constructor
    · intro v hv
      simp only [interEffects, statesOf, List.mem_cons] at hv
      rcases hv with rfl | hv2
      · exact occInv_live_length h
      · rcases mem_statesOf_append hv2 with ha | hb
        · exact heff.1 v ha
        · exact hih.1 v hb
    · have hrw : microRun (interEffects (k :: rest)) w
          = microRun (interEffects rest)
              (microRun (effectOps k) (microStep w MicroOp.runCleanup)) := by
        show microRun (effectOps k ++ interEffects rest) (microStep w MicroOp.runCleanup) = _
        rw [microRun_append]
      rw [hrw]
      exact hih.2

/-- **C2**: for every sequence of `currentEventId` values seen by one
mounted `VenueOccupancy` instance (and the final unmount), every state
reached — including the intermediate states inside each effect body —
has at most one live channel; and activating with key A then immediately
with key B produces exactly the event log open A, close A, open B,
close B: one close-then-open transition, with the old channel's
unsubscribe invoked before the new channel is opened. -/
theorem C2_single_live_channel :
    (∀ (keys : List (Option String)) (v : OccWorld),
      v ∈ statesOf (fullTrace keys) occWorld0 → v.live.length ≤ 1)
    ∧ ∀ (a b : String),
      traceEvents occWorld0 (fullTrace [some a, some b]) =
        [ChannelEvent.openChan 0 a, ChannelEvent.closeChan 0,
         ChannelEvent.openChan 1 b, ChannelEvent.closeChan 1] := by
  have h0 : occInv occWorld0 := ⟨fun _ => rfl, fun c hc => by simp [occWorld0] at hc⟩
  constructor
  · intro keys v hv
    cases keys with
    | nil =>
      simp only [fullTrace, List.nil_append, statesOf, List.mem_cons,
        List.mem_singleton, List.not_mem_nil, or_false] at hv
      rcases hv with rfl | rfl
      · exact occInv_live_length h0
      · exact occInv_live_length (occInv_cleanup h0).1
    | cons k rest =>
      have hv' : v ∈ statesOf ((effectOps k ++ interEffects rest)
          ++ [MicroOp.runCleanup]) occWorld0 := by
        simpa [fullTrace] using hv
      have hfin : occInv (microRun (effectOps k ++ interEffects rest) occWorld0) := by
        rw [microRun_append]
        exact (interEffects_segment rest _ (effect_segment k h0).2).2
      rcases mem_statesOf_append hv' with hmid | hlast
      · rcases mem_statesOf_append hmid with ha | hb
        · exact (effect_segment k h0).1 v ha
        · exact (interEffects_segment rest _ (effect_segment k h0).2).1 v hb
      · simp only [statesOf, List.mem_cons, List.mem_singleton,
          List.not_mem_nil, or_false] at hlast
        rcases hlast with rfl | rfl
        · exact occInv_live_length hfin
        · exact occInv_live_length (occInv_cleanup hfin).1
  · intro a b
    rfl

/-- **C2 witness**: the invariant theorem applied to the initial state of
the one-activation trace. -/
theorem C2_single_live_channel_witness : occWorld0.live.length ≤ 1 :=
  C2_single_live_channel.1 [some "a"] occWorld0 (by decide)

/-- **C10 amended witness**: the amended theorem at concrete inputs. -/
theorem C10_capacity_truthy_amended_witness :
    attNonThrowing (ReadResult.ok 5) = true ∧ (2000 : Int) ≠ 0
    ∧ occState0.venueCapacity ≠ 0
    ∧ (fetchData (ReadResult.ok (some 2000)) (ReadResult.ok 5) occState0).venueCapacity = 2000 :=
  ⟨rfl, by decide, by decide,
    (C10_capacity_truthy_amended 2000 (ReadResult.ok 5) (ReadResult.err "x")
      (ReadResult.ok 5) occState0 rfl (by decide) (by decide)).2.2.1⟩

/-- Helper: stable insertion permutes consing. -/
theorem insertByMinutes_perm (x : TimingM) (l : List TimingM) :
    (insertByMinutes x l).Perm (x :: l) := by
  induction l with
  | nil => exact List.Perm.refl _
  | cons y ys ih =>
    by_cases hc : y.minutesSinceMidnight ≤ x.minutesSinceMidnight
    · simp only [insertByMinutes, if_pos hc]
      exact (ih.cons y).trans (List.Perm.swap x y ys)
    · simp only [insertByMinutes, if_neg hc]
      exact List.Perm.refl _

/-- Helper: the stable sort permutes its input. -/
theorem stableSortByMinutes_perm (l : List TimingM) :
    (stableSortByMinutes l).Perm l := by
  have aux : ∀ (l acc : List TimingM),
      (l.foldl (fun a x => insertByMinutes x a) acc).Perm (acc ++ l) := by
    intro l
    induction l with
    | nil => intro acc; simp
    | cons x xs ih =>
      intro acc
      have h1 := ih (insertByMinutes x acc)
      have h2 : (insertByMinutes x acc ++ xs).Perm ((x :: acc) ++ xs) :=
        (insertByMinutes_perm x acc).append_right xs
      have h3 : ((x :: acc) ++ xs).Perm (acc ++ x :: xs) := List.perm_middle.symm
      exact (h1.trans h2).trans h3
  simpa using aux l []

/-- Helper: indexed stable insertion permutes consing. -/
theorem insertIdxByMinutes_perm (x : Nat × TimingM) (l : List (Nat × TimingM)) :
    (insertIdxByMinutes x l).Perm (x :: l) := by
  induction l with
  | nil => exact List.Perm.refl _
  | cons y ys ih =>
    by_cases hc : y.2.minutesSinceMidnight ≤ x.2.minutesSinceMidnight
    · simp only [insertIdxByMinutes, if_pos hc]
      exact (ih.cons y).trans (List.Perm.swap x y ys)
    · simp only [insertIdxByMinutes, if_neg hc]
      exact List.Perm.refl _

/-- Helper: membership after indexed insertion. -/
theorem mem_insertIdxByMinutes {x y : Nat × TimingM} {l : List (Nat × TimingM)}
    (h : y ∈ insertIdxByMinutes x l) : y = x ∨ y ∈ l := by
  have h2 := (insertIdxByMinutes_perm x l).mem_iff.mp h
  simpa using h2

/-- Helper: the indexed insertion projects to the plain insertion. -/
theorem map_snd_insertIdx (x : Nat × TimingM) (l : List (Nat × TimingM)) :
    (insertIdxByMinutes x l).map Prod.snd = insertByMinutes x.2 (l.map Prod.snd) := by
  induction l with
  | nil => rfl
  | cons y ys ih =>
    by_cases hc : y.2.minutesSinceMidnight ≤ x.2.minutesSinceMidnight
    · simp only [insertIdxByMinutes, insertByMinutes, List.map_cons, if_pos hc]
      rw [ih]
    · simp only [insertIdxByMinutes, insertByMinutes, List.map_cons, if_neg hc]

/-- Helper: the indexed sort projects to the plain sort. -/
theorem map_snd_stableSortIdx (l : List (Nat × TimingM)) :
    (stableSortIdxByMinutes l).map Prod.snd = stableSortByMinutes (l.map Prod.snd) := by
  have aux : ∀ (l acc : List (Nat × TimingM)),
      (l.foldl (fun a x => insertIdxByMinutes x a) acc).map Prod.snd
        = (l.map Prod.snd).foldl (fun a x => insertByMinutes x a) (acc.map Prod.snd) := by
    intro l
    induction l with
    | nil => intro acc; rfl
    | cons x xs ih =>
      intro acc
      simp only [List.foldl_cons, List.map_cons]
      rw [ih, map_snd_insertIdx]
  simpa [stableSortIdxByMinutes, stableSortByMinutes] using aux l []

/-- Helper: dropping the attached positions recovers the list. -/
theorem withIdx_map_snd {α : Type} (n : Nat) (l : List α) :
    (withIdx n l).map Prod.snd = l := by
  induction l generalizing n with
  | nil => rfl
  | cons x xs ih => simp [withIdx, ih]

/-- Helper: attached positions are at least the starting position. -/
theorem mem_withIdx_le {α : Type} {n : Nat} {l : List α} {p : Nat × α}
    (h : p ∈ withIdx n l) : n ≤ p.1 := by
  induction l generalizing n with
  | nil => simp [withIdx] at h
  | cons x xs ih =>
    simp only [withIdx, List.mem_cons] at h
    rcases h with rfl | h2
    · exact le_refl n
    · exact le_trans (Nat.le_succ n) (ih h2)

/-- Helper: the element part of an indexed member is a member. -/
theorem mem_withIdx_snd {α : Type} {n : Nat} {l : List α} {p : Nat × α}
    (h : p ∈ withIdx n l) : p.2 ∈ l := by
  have h2 : p.2 ∈ (withIdx n l).map Prod.snd := List.mem_map_of_mem Prod.snd h
  rwa [withIdx_map_snd] at h2

/-- Helper: attached positions are strictly increasing. -/
theorem withIdx_pairwise_idx {α : Type} (n : Nat) (l : List α) :
    (withIdx n l).Pairwise (fun a b => a.1 < b.1) := by
  induction l generalizing n with
  | nil => exact List.Pairwise.nil
  | cons x xs ih =>
    refine List.Pairwise.cons ?_ (ih (n + 1))
    intro q hq
    exact lt_of_lt_of_le (Nat.lt_succ_self n) (mem_withIdx_le hq)

/-- Helper: inserting an element of larger position into a
lexicographically sorted list keeps it lexicographically sorted — this
is the stability argument: a stable ascending insertion realises the
strict (minutes, original position) order. -/
theorem insertIdx_pairwise {x : Nat × TimingM} {l : List (Nat × TimingM)}
    (hl : l.Pairwise timeIdxLt) (hidx : ∀ y ∈ l, y.1 < x.1) :
    (insertIdxByMinutes x l).Pairwise timeIdxLt := by
  induction l with
  | nil => simp [insertIdxByMinutes]
  | cons y ys ih =>
    rcases List.pairwise_cons.mp hl with ⟨hy, hys⟩
    by_cases hc : y.2.minutesSinceMidnight ≤ x.2.minutesSinceMidnight
    · simp only [insertIdxByMinutes, if_pos hc]
      refine List.Pairwise.cons ?_ (ih hys (fun z hz => hidx z (List.mem_cons_of_mem y hz)))
      intro z hz
      rcases mem_insertIdxByMinutes hz with rfl | hz2
      · rcases lt_or_eq_of_le hc with hlt | heq
        · exact Or.inl hlt
        · exact Or.inr ⟨heq, hidx y (List.mem_cons_self y ys)⟩
      · exact hy z hz2
    · simp only [insertIdxByMinutes, if_neg hc]
      refine List.Pairwise.cons ?_ hl
      intro z hz
      rcases List.mem_cons.mp hz with rfl | hz2
      · exact Or.inl (Nat.lt_of_not_le hc)
      · have hyz := hy z hz2
        have hle : y.2.minutesSinceMidnight ≤ z.2.minutesSinceMidnight := by
          rcases hyz with h1 | ⟨h1, _⟩
          · exact le_of_lt h1
          · exact le_of_eq h1
        exact Or.inl (lt_of_lt_of_le (Nat.lt_of_not_le hc) hle)

/-- Helper: sorting a position-increasing list yields a strictly
(minutes, position)-sorted list. -/
theorem stableSortIdx_pairwise {l : List (Nat × TimingM)}
    (h : l.Pairwise (fun a b => a.1 < b.1)) :
    (stableSortIdxByMinutes l).Pairwise timeIdxLt := by
  have aux : ∀ (l acc : List (Nat × TimingM)),
      l.Pairwise (fun a b => a.1 < b.1) →
      acc.Pairwise timeIdxLt →
      (∀ y ∈ acc, ∀ x ∈ l, y.1 < x.1) →
      (l.foldl (fun a x => insertIdxByMinutes x a) acc).Pairwise timeIdxLt := by
    intro l
    induction l with
    | nil =>
      intro acc _ hacc _
      exact hacc
    | cons x xs ih =>
      intro acc hl hacc hcross
      rcases List.pairwise_cons.mp hl with ⟨hx, hxs⟩
      refine ih (insertIdxByMinutes x acc) hxs ?_ ?_
      · exact insertIdx_pairwise hacc (fun y hy => hcross y hy x (List.mem_cons_self x xs))
      · intro y hy z hz
        rcases mem_insertIdxByMinutes hy with rfl | hy2
        · exact hx z hz
        · exact hcross y hy2 z (List.mem_cons_of_mem x hz)
  exact aux l [] h List.Pairwise.nil (fun y hy => absurd hy (List.not_mem_nil y))

/-- Helper: elements of `timingsWithMinutes` carry the minutes of their
own clock time. -/
theorem timingsWithMinutes_minutes {e : EventRow} {t : TimingM}
    (h : t ∈ timingsWithMinutes e) : t.minutesSinceMidnight = toMinutes t.time := by
  simp only [timingsWithMinutes, List.mem_map] at h
  rcases h with ⟨p, _, rfl⟩
  rfl

/-- Helper: filtered timings are future and carry their own minutes. -/
theorem filteredTimings_mem {e : EventRow} {cur : Nat} {t : TimingM}
    (h : t ∈ filteredTimings e cur) :
    cur < t.minutesSinceMidnight ∧ t.minutesSinceMidnight = toMinutes t.time := by
  simp only [filteredTimings, List.mem_filter, decide_eq_true_eq] at h
  exact ⟨h.2, timingsWithMinutes_minutes h.1⟩

/-- Helper: positions attached to a list have its length. -/
theorem withIdx_length {α : Type} (n : Nat) (l : List α) :
    (withIdx n l).length = l.length := by
  induction l generalizing n with
  | nil => rfl
  | cons x xs ih => simp [withIdx, ih]

/-- **C3**: the Next-Event Selector discards unset fields and returns at
most 3 entries, all strictly after the reference current time, sorted
ascending by time; the output order is exactly the strict lexicographic
(minutes, original field position) order — i.e. ascending with a stable
tie-break on the stated field order — the returned list is a permutation
of the retained future entries, and exactly the first entry is flagged
as next. -/
theorem C3_next_event_selector (e : EventRow) (cur : Nat) :
    (nextThreeTimings e cur).length ≤ 3
    ∧ (∀ t ∈ nextThreeTimings e cur, cur < toMinutes t.time)
    ∧ (nextThreeTimings e cur).Pairwise
        (fun a b => toMinutes a.time ≤ toMinutes b.time)
    ∧ futureTimings e cur = (sortedIndexedFuture e cur).map Prod.snd
    ∧ (sortedIndexedFuture e cur).Pairwise timeIdxLt
    ∧ (futureTimings e cur).Perm (filteredTimings e cur)
    ∧ (match nextThreeTimings e cur with
       | [] => True
       | t :: rest => t.isNext = true ∧ ∀ u ∈ rest, u.isNext = false) := by
  have hpw_idx : (sortedIndexedFuture e cur).Pairwise timeIdxLt :=
    stableSortIdx_pairwise (withIdx_pairwise_idx 0 _)
  have hfut_eq : futureTimings e cur = (sortedIndexedFuture e cur).map Prod.snd := by
    simp only [sortedIndexedFuture, futureTimings]
    rw [map_snd_stableSortIdx, withIdx_map_snd]
  have hmem_fil : ∀ p : Nat × TimingM, p ∈ withIdx 0 ((futureTimings e cur).take 3) →
      cur < p.2.minutesSinceMidnight
      ∧ p.2.minutesSinceMidnight = toMinutes p.2.time := by
    intro p hp
    have hsnd := mem_withIdx_snd hp
    have hfut : p.2 ∈ futureTimings e cur := List.take_subset 3 _ hsnd
    have hfil : p.2 ∈ filteredTimings e cur :=
      (stableSortByMinutes_perm _).mem_iff.mp hfut
    exact filteredTimings_mem hfil
  refine ⟨?_, ?_, ?_, hfut_eq, hpw_idx, stableSortByMinutes_perm _, ?_⟩
  · simp only [nextThreeTimings, List.length_map, withIdx_length, List.length_take]
    exact min_le_left 3 _
  · intro t ht
    simp only [nextThreeTimings, List.mem_map] at ht
    rcases ht with ⟨p, hp, rfl⟩
    have hprop := hmem_fil p hp
    simpa [projTiming, ← hprop.2] using hprop.1
  · have hpw_fut : (futureTimings e cur).Pairwise
        (fun a b => a.minutesSinceMidnight ≤ b.minutesSinceMidnight) := by
      rw [hfut_eq, List.pairwise_map]
      refine hpw_idx.imp ?_
      intro a b hab
      rcases hab with h1 | ⟨h1, _⟩
      · exact le_of_lt h1
      · exact le_of_eq h1
    have hpw_T3 : ((futureTimings e cur).take 3).Pairwise
        (fun a b => a.minutesSinceMidnight ≤ b.minutesSinceMidnight) :=
      List.Pairwise.sublist (List.take_sublist 3 _) hpw_fut
    have hpw_w : (withIdx 0 ((futureTimings e cur).take 3)).Pairwise
        (fun p q => p.2.minutesSinceMidnight ≤ q.2.minutesSinceMidnight) := by
      have h1 := hpw_T3
      rw [← withIdx_map_snd 0 ((futureTimings e cur).take 3), List.pairwise_map] at h1
      exact h1
    simp only [nextThreeTimings, List.pairwise_map]
    refine List.Pairwise.imp_of_mem ?_ hpw_w
    intro p q hp hq hle
    have hp2 := hmem_fil p hp
    have hq2 := hmem_fil q hq
    simp only [projTiming]
    rw [← hp2.2, ← hq2.2]
    exact hle
  · cases hT : (futureTimings e cur).take 3 with
    | nil => simp [nextThreeTimings, hT, withIdx]
    | cons t rest =>
      have hNE : nextThreeTimings e cur
          = projTiming (0, t) :: (withIdx 1 rest).map projTiming := by
        simp [nextThreeTimings, hT, withIdx]
      rw [hNE]
      refine ⟨rfl, ?_⟩
      intro u hu
      simp only [List.mem_map] at hu
      rcases hu with ⟨p, hp, rfl⟩
      have h1 : 1 ≤ p.1 := mem_withIdx_le hp
      simp only [projTiming]
      simp only [beq_eq_false_iff_ne, ne_eq]
      omega

/-- **C3 witness**: the selector applied to the spec's example schedule
(Doors Open 18:00, Main Act 20:00, Curfew 23:00) at 19:00: the Main Act
entry is returned and is strictly after 19:00. -/
theorem C3_next_event_selector_witness :
    ({ title := "Main Act", time := (20, 0), isNext := true } : EventTiming)
        ∈ nextThreeTimings exampleEventRow 1140
    ∧ 1140 < toMinutes ((20, 0) : Nat × Nat) :=
  ⟨by decide, (C3_next_event_selector exampleEventRow 1140).2.1
      { title := "Main Act", time := (20, 0), isNext := true } (by decide)⟩

end Dashboard
